import Mathlib

/-!
Shallow embedding of the `patricia-tree` crate (files `src/lib.rs` and
`src/node.rs`): a radix trie mapping byte-string keys to values of a
generic type `T`.  Keys are modelled as `List Byte`; only decidable
equality of bytes is used by the code, so `Byte` is `Nat`.  The Rust
methods mutate `&mut self`; here each is a pure function returning the
updated structure.
-/

abbrev Byte := Nat

/-- Embeds `get_match_len` from `lib.rs`: walk the two sequences in
lockstep, counting while the elements are equal and stopping at the
first divergence or at the end of the shorter input. -/
def get_match_len : List Byte → List Byte → Nat
  | a :: as, b :: bs => if a = b then get_match_len as bs + 1 else 0
  | _, _ => 0

/-- Embeds `TrieNode<T>` from `node.rs`: a key fragment, an optional
value, and a list of children (`Vec<Box<TrieNode<T>>>`). -/
inductive TrieNode (T : Type) : Type where
  | mk (key : List Byte) (value : Option T) (children : List (TrieNode T)) : TrieNode T

variable {T : Type}

def TrieNode.key : TrieNode T → List Byte
  | ⟨k, _, _⟩ => k

def TrieNode.value : TrieNode T → Option T
  | ⟨_, v, _⟩ => v

def TrieNode.children : TrieNode T → List (TrieNode T)
  | ⟨_, _, c⟩ => c

/-- Embeds `TrieNode::new`. -/
def TrieNode.new : TrieNode T := ⟨[], none, []⟩

/-- Embeds `TrieNode::prefix_match`: true when the node's fragment and
the given key share at least one leading byte. -/
def TrieNode.fragMatch (n : TrieNode T) (key : List Byte) : Bool :=
  decide (get_match_len n.key key > 0)

mutual

/-- Embeds `TrieNode::get`. -/
def TrieNode.get : TrieNode T → List Byte → Option T
  | ⟨k, v, cs⟩, key =>
    let m := get_match_len k key
    if m = k.length then
      if m = key.length then v
      else TrieNode.getChildren cs (key.drop m)
    else none

/-- Embeds `TrieNode::get_children`: scan the children in order and
return the first hit. -/
def TrieNode.getChildren : List (TrieNode T) → List Byte → Option T
  | [], _ => none
  | c :: cs, key =>
    match c.get key with
    | some v => some v
    | none => TrieNode.getChildren cs key

end

/-- Embeds `TrieNode::add_new_child`: push a fresh leaf onto the
children list. -/
def TrieNode.addNewChild (cs : List (TrieNode T)) (key : List Byte) (value : Option T) :
    List (TrieNode T) :=
  cs ++ [⟨key, value, []⟩]

mutual

/-- Embeds `TrieNode::insert`.  Note two faithful details: when the
fragment is only partially matched the node is split, and the split
leaves the original children attached to the shortened node (only the
fragment suffix and the value move into the new child); remainders are
inserted verbatim even when empty (the `debug_assert!(!key.is_empty())`
of the Rust code is a debug-build check, not a behaviour). -/
def TrieNode.insert : TrieNode T → List Byte → T → TrieNode T
  | ⟨k, v, cs⟩, key, value =>
    if k.isEmpty then ⟨key, some value, cs⟩
    else
      let m := get_match_len k key
      if m = k.length then
        let key' := key.drop m
        if cs.isEmpty then ⟨k, v, TrieNode.addNewChild cs key' (some value)⟩
        else ⟨k, v, TrieNode.insertChildren cs key' value⟩
      else
        let childKey := k.drop m
        ⟨k.take m, none,
          TrieNode.addNewChild (TrieNode.addNewChild cs childKey v) (key.drop m) (some value)⟩

/-- Embeds `TrieNode::insert_children`: recurse into the first child
sharing a leading byte with the key, else push a new leaf. -/
def TrieNode.insertChildren : List (TrieNode T) → List Byte → T → List (TrieNode T)
  | [], key, value => TrieNode.addNewChild [] key (some value)
  | c :: cs, key, value =>
    if c.fragMatch key then c.insert key value :: cs
    else c :: TrieNode.insertChildren cs key value

end

/-- Embeds `TrieNode::delete`: the body is empty in the source, so the
node is returned unchanged. -/
def TrieNode.delete (n : TrieNode T) (_key : List Byte) : TrieNode T := n

/-- Embeds `Trie<T>` from `lib.rs`: the root forest. -/
structure Trie (T : Type) where
  children : List (TrieNode T)

/-- Embeds `Trie::new`. -/
def Trie.new : Trie T := ⟨[]⟩

/-- Embeds `Trie::get`: scan every top-level node for a match, in order,
the same loop as `TrieNode::get_children`. -/
def Trie.get (t : Trie T) (key : List Byte) : Option T :=
  TrieNode.getChildren t.children key

/-- Loop of `Trie::insert` over the top-level nodes: recurse into the
first node sharing a leading byte, else push a node built by
`TrieNode::new` followed by `TrieNode::insert`. -/
def Trie.insertAux : List (TrieNode T) → List Byte → T → List (TrieNode T)
  | [], key, value => [TrieNode.new.insert key value]
  | c :: cs, key, value =>
    if c.fragMatch key then c.insert key value :: cs
    else c :: Trie.insertAux cs key value

/-- Embeds `Trie::insert`. -/
def Trie.insert (t : Trie T) (key : List Byte) (value : T) : Trie T :=
  if t.children.isEmpty then ⟨[TrieNode.new.insert key value]⟩
  else ⟨Trie.insertAux t.children key value⟩

/-- Embeds `Trie::delete`: the body is empty in the source, so the trie
is returned unchanged. -/
def Trie.delete (t : Trie T) (_key : List Byte) : Trie T := t

mutual

/-- Checks invariant I2 of the spec on a node: the fragment of the node
and of every node below it is non-empty. -/
def TrieNode.fragsNonEmpty : TrieNode T → Bool
  | ⟨k, _, cs⟩ => !k.isEmpty && TrieNode.fragsNonEmptyList cs

/-- `TrieNode.fragsNonEmpty` over a list of nodes. -/
def TrieNode.fragsNonEmptyList : List (TrieNode T) → Bool
  | [] => true
  | c :: cs => c.fragsNonEmpty && TrieNode.fragsNonEmptyList cs

end

/-- Checks invariant I2 on every node of the trie. -/
def Trie.fragsNonEmpty (t : Trie T) : Bool :=
  TrieNode.fragsNonEmptyList t.children

/-- True when the fragment `k` shares no non-empty common prefix with
the fragment of any node in the list. -/
def TrieNode.noSharedStart : List Byte → List (TrieNode T) → Bool
  | _, [] => true
  | k, c :: cs => decide (get_match_len k c.key = 0) && TrieNode.noSharedStart k cs

mutual

/-- Checks invariant I1 of the spec below a node: among every sibling
group in its subtree, no two fragments share a non-empty common
prefix. -/
def TrieNode.compressed : TrieNode T → Bool
  | ⟨_, _, cs⟩ => TrieNode.compressedList cs

/-- Invariant I1 for a sibling group and, recursively, for every
sibling group below it. -/
def TrieNode.compressedList : List (TrieNode T) → Bool
  | [] => true
  | c :: cs => TrieNode.noSharedStart c.key cs && c.compressed && TrieNode.compressedList cs

end

/-- Checks invariant I1 on the whole trie, the top-level sibling group
included. -/
def Trie.compressed (t : Trie T) : Bool :=
  TrieNode.compressedList t.children

/-! Helper lemmas about `get_match_len`. -/

theorem get_match_len_nil_left (b : List Byte) : get_match_len [] b = 0 := by
  cases b <;> rfl

theorem get_match_len_nil_right (a : List Byte) : get_match_len a [] = 0 := by
  cases a <;> rfl

theorem get_match_len_cons (x y : Byte) (as bs : List Byte) :
    get_match_len (x :: as) (y :: bs) =
      if x = y then get_match_len as bs + 1 else 0 := rfl

theorem get_match_len_le_left (a b : List Byte) : get_match_len a b ≤ a.length := by
  induction a generalizing b with
  | nil => simp [get_match_len_nil_left]
  | cons x as ih =>
    cases b with
    | nil => simp [get_match_len_nil_right]
    | cons y bs =>
      rw [get_match_len_cons]
      by_cases h : x = y
      · simp only [h, if_pos rfl, List.length_cons]
        exact Nat.succ_le_succ (ih bs)
      · simp [h]

theorem get_match_len_le_right (a b : List Byte) : get_match_len a b ≤ b.length := by
  induction a generalizing b with
  | nil => simp [get_match_len_nil_left]
  | cons x as ih =>
    cases b with
    | nil => simp [get_match_len_nil_right]
    | cons y bs =>
      rw [get_match_len_cons]
      by_cases h : x = y
      · simp only [h, if_pos rfl, List.length_cons]
        exact Nat.succ_le_succ (ih bs)
      · simp [h]

theorem get_match_len_take (a b : List Byte) :
    List.take (get_match_len a b) a = List.take (get_match_len a b) b := by
  induction a generalizing b with
  | nil => simp [get_match_len_nil_left]
  | cons x as ih =>
    cases b with
    | nil => simp [get_match_len_nil_right]
    | cons y bs =>
      by_cases h : x = y
      · subst h
        rw [get_match_len_cons, if_pos rfl]
        simp only [List.take_succ_cons]
        rw [ih bs]
      · simp [get_match_len_cons, h]

theorem get_match_len_max (a b : List Byte) (n : Nat) (hn : n ≤ a.length)
    (h : List.take n a = List.take n b) : n ≤ get_match_len a b := by
  induction a generalizing b n with
  | nil =>
    have hn0 : n = 0 := by simpa using hn
    subst hn0
    exact Nat.zero_le _
  | cons x as ih =>
    cases n with
    | zero => exact Nat.zero_le _
    | succ m =>
      cases b with
      | nil => simp at h
      | cons y bs =>
        simp only [List.take_succ_cons, List.cons.injEq] at h
        rw [get_match_len_cons, if_pos h.1]
        exact Nat.succ_le_succ (ih bs m (Nat.le_of_succ_le_succ hn) h.2)

/-- On a forest in which every fragment is non-empty, looking up the
empty key misses every node: the match length against a non-empty
fragment is shorter than the fragment, so `TrieNode::get` returns
`None` at each sibling. -/
theorem getChildren_nil_key_of_fragsNonEmpty (cs : List (TrieNode T))
    (h : TrieNode.fragsNonEmptyList cs = true) :
    TrieNode.getChildren cs [] = none := by
  induction cs with
  | nil => rfl
  | cons c cs ih =>
    obtain ⟨k, v, cs'⟩ := c
    rw [TrieNode.fragsNonEmptyList, TrieNode.fragsNonEmpty] at h
    simp only [Bool.and_eq_true] at h
    have hk : k ≠ [] := by
      intro hnil
      rw [hnil] at h
      simp [List.isEmpty] at h
    rw [TrieNode.getChildren, TrieNode.get]
    have hlen : get_match_len k [] ≠ k.length := by
      rw [get_match_len_nil_right]
      intro h0
      exact hk (List.length_eq_zero.mp h0.symm)
    rw [if_neg hlen]
    exact ih h.2

/-! Claim theorems.  Byte values used in the concrete inputs: 47 is
the slash, 49, 50 and 51 are the digits one, two and three, 97 and 98
are the letters a and b. -/

/-- Claim C1: the round-trip property fails on the code.  Starting from
the reachable state built by inserting key [97, 98] with value 1,
inserting key [97] with value 2 and then looking up [97] returns
`none`, not `some 2`: the split truncates the node to fragment [97]
with no value and stores the new value in a child with an empty
fragment, which lookup never reads. -/
theorem c1_roundtrip_fails_eval :
    ((((Trie.new (T := Nat)).insert [97, 98] 1).insert [97] 2).get [97] = none) ∧
    (((Trie.new (T := Nat)).insert [97, 98] 1).insert [97] 2 =
      ⟨[⟨[97], none, [⟨[98], some 1, []⟩, ⟨[], some 2, []⟩]⟩]⟩) := ⟨rfl, rfl⟩

/-- Claim C2: overwrite fails on the code.  Inserting key [97] with
value 1 and then again with value 2 leaves `get [97]` returning the old
`some 1`, and the second insert creates a new node (a child with an
empty fragment holding 2) instead of overwriting. -/
theorem c2_overwrite_fails_eval :
    ((((Trie.new (T := Nat)).insert [97] 1).insert [97] 2).get [97] = some 1) ∧
    (((Trie.new (T := Nat)).insert [97] 1).insert [97] 2 =
      ⟨[⟨[97], some 1, [⟨[], some 2, []⟩]⟩]⟩) := ⟨rfl, rfl⟩

/-- Claim C3: the deletion round-trip fails on the code because
`delete` is a stub.  After inserting key [97] with value 1 and deleting
[97], the trie is unchanged and `get [97]` still returns `some 1`, not
`none`. -/
theorem c3_delete_stub_eval :
    ((((Trie.new (T := Nat)).insert [97] 1).delete [97]).get [97] = some 1) ∧
    (((Trie.new (T := Nat)).insert [97] 1).delete [97] =
      (Trie.new (T := Nat)).insert [97] 1) := ⟨rfl, rfl⟩

/-- Claim C4: `delete` has no effect.  For every trie and every key,
`delete` returns the trie unchanged, so deleting twice equals deleting
once. -/
theorem c4_delete_no_effect {T : Type} (t : Trie T) (key : List Byte) :
    t.delete key = t ∧ (t.delete key).delete key = t.delete key := ⟨rfl, rfl⟩

/-- Claim C5: non-interference fails on the code.  After inserting keys
[47, 49, 50] and [47, 49, 51] (values 1 and 2), `get [47, 49, 50]`
returns `some 1`; inserting the distinct key [47, 50] (value 3) then
makes `get [47, 49, 50]` return `none`, because the split of the node
with fragment [47, 49] leaves its children attached to the node
shortened to [47], detaching them from their path. -/
theorem c5_noninterference_fails_eval :
    ((((Trie.new (T := Nat)).insert [47, 49, 50] 1).insert [47, 49, 51] 2).get
      [47, 49, 50] = some 1) ∧
    (((((Trie.new (T := Nat)).insert [47, 49, 50] 1).insert [47, 49, 51] 2).insert
      [47, 50] 3).get [47, 49, 50] = none) := ⟨rfl, rfl⟩

/-- Claim C6: the compression invariant I1 fails on the code.  The
state reached by inserting keys [47, 49, 50], [47, 49, 51] and
[47, 50] has a top-level node with fragment [47] whose children include
two siblings both with fragment [50]: the split kept the old children
([50] and [51]) on the shortened node next to the new ones. -/
theorem c6_compression_fails_eval :
    (((((Trie.new (T := Nat)).insert [47, 49, 50] 1).insert [47, 49, 51] 2).insert
      [47, 50] 3).compressed = false) ∧
    ((((Trie.new (T := Nat)).insert [47, 49, 50] 1).insert [47, 49, 51] 2).insert
      [47, 50] 3 =
      ⟨[⟨[47], none, [⟨[50], some 1, []⟩, ⟨[51], some 2, []⟩, ⟨[49], none, []⟩,
        ⟨[50], some 3, []⟩]⟩]⟩) := ⟨rfl, rfl⟩

/-- Claim C7: the non-empty-fragment invariant fails on the code.
Inserting key [97] twice creates a child with an empty fragment, and
inserting the empty key creates a top-level node with an empty
fragment; both states are reachable by insertions alone. -/
theorem c7_nonempty_frag_fails_eval :
    ((((Trie.new (T := Nat)).insert [97] 1).insert [97] 2).fragsNonEmpty = false) ∧
    (((Trie.new (T := Nat)).insert [] 5).fragsNonEmpty = false) := ⟨rfl, rfl⟩

/-- Claim C8: in a split with an empty remainder the shortened node
does not receive the inserted value.  Inserting key [97] into a node
with fragment [97, 98] (match length 1, remainder empty) leaves the
shortened node valueless — the value goes to an empty-fragment child —
whereas the claim says the shortened node itself holds it.  The second
conjunct checks the non-empty-remainder half of the claim, which the
code does satisfy: inserting [97, 99] into the same node also leaves
the shortened node valueless. -/
theorem c8_split_shortened_node_value_eval :
    (((((Trie.new (T := Nat)).insert [97, 98] 1).insert [97] 2).children.map
      TrieNode.value) = [none]) ∧
    (((((Trie.new (T := Nat)).insert [97, 98] 1).insert [97, 99] 2).children.map
      TrieNode.value) = [none]) := ⟨rfl, rfl⟩

/-- Claim C9: `get_match_len` returns exactly the length of the longest
common prefix of its two inputs: the result is bounded by both lengths,
taking that many elements of either input gives the same sequence, any
longer agreement is impossible, the result is 0 when either input is
empty, and 0 when the first elements differ.  The function is a total
Lean function, so it is pure with no failure mode. -/
theorem c9_get_match_len_is_lcp (a b : List Byte) :
    get_match_len a b ≤ a.length ∧
    get_match_len a b ≤ b.length ∧
    List.take (get_match_len a b) a = List.take (get_match_len a b) b ∧
    (∀ n : Nat, n ≤ a.length → List.take n a = List.take n b →
      n ≤ get_match_len a b) ∧
    get_match_len a [] = 0 ∧ get_match_len [] b = 0 ∧
    (∀ x y : Byte, ∀ as bs : List Byte, a = x :: as → b = y :: bs → x ≠ y →
      get_match_len a b = 0) := by
  refine ⟨get_match_len_le_left a b, get_match_len_le_right a b,
    get_match_len_take a b, fun n hn h => get_match_len_max a b n hn h,
    get_match_len_nil_right a, get_match_len_nil_left b,
    fun x y as bs ha hb hxy => ?_⟩
  subst ha
  subst hb
  rw [get_match_len_cons, if_neg hxy]

/-- Witness for C9 at a concrete input: the inner maximality clause
applied to the lists [5, 2] and [5, 3] at length 1. -/
theorem c9_get_match_len_is_lcp_witness : 1 ≤ get_match_len [5, 2] [5, 3] :=
  (c9_get_match_len_is_lcp [5, 2] [5, 3]).2.2.2.1 1 (by decide) (by decide)

/-- Claim C10: inserting the empty key into a new trie produces a single
top-level node with an empty fragment holding the value, and `get` with
the empty key then returns it; on any trie all of whose fragments are
non-empty, `get` with the empty key returns `none`. -/
theorem c10_empty_key_behaviour (T : Type) (v : T) (t : Trie T) :
    Trie.new.insert [] v = ⟨[⟨[], some v, []⟩]⟩ ∧
    (Trie.new.insert [] v).get [] = some v ∧
    (t.fragsNonEmpty = true → t.get [] = none) := by
  refine ⟨rfl, rfl, fun h => ?_⟩
  exact getChildren_nil_key_of_fragsNonEmpty t.children h

/-- Witness for C10 at a concrete input: a trie holding only the key
[97], whose fragments are all non-empty, misses the empty key. -/
theorem c10_empty_key_behaviour_witness :
    ((Trie.new (T := Nat)).insert [97] 1).get [] = none :=
  (c10_empty_key_behaviour Nat 1 ((Trie.new (T := Nat)).insert [97] 1)).2.2 rfl
